import Mathlib

/-!
Verification of the DCE-MRI semi-quantitative perfusion pipeline
(`quantificationLogic.process` and its helpers).

The numeric core is shallowly embedded over exact rationals (`ℚ`): numpy
arrays become functions from voxel indices, a 4-D time series becomes a
time-indexed family of such functions, boolean mask arrays duplicate the
numpy comparisons with `decide`, and the imperative mask updates of
`process` are split into one named definition per assignment, in program
order.  Voxel indices live in `ℤ × ℤ × ℤ` so that the zero-padded 3×3×3
convolution of the connectivity filter is expressed by neighbour offsets.
-/

/-- Voxel index type: (z, y, x) integer coordinates. -/
abbrev V3 := ℤ × ℤ × ℤ

/-- Constant `self.EPSILON = 1.0e-6` of `quantificationLogic`. -/
def EPSILON : ℚ := 1 / 1000000

/-- Constant `self.INF_THRESHOLD = 1.0e6` of `quantificationLogic`. -/
def INF_THRESHOLD : ℚ := 1000000

/-- Constant `self.PIXEL_CONNECTIVITY = 4` of `quantificationLogic`. -/
def PIXEL_CONNECTIVITY : ℚ := 4

/-- Lower bounds of the SER intervals: `serMapInterval[:-1]` with
`serMapInterval = [0.00, 0.90, 1.0, 1.30, 1.75, 3.00]` (`setSERColourMapDict`). -/
def SERLevelLB : List ℚ := [0, 9/10, 1, 13/10, 7/4]

/-- Upper bounds of the SER intervals: `serMapInterval[1:]` (`setSERColourMapDict`). -/
def SERLevelUB : List ℚ := [9/10, 1, 13/10, 7/4, 3]

/-- Insert a rational into an already sorted list, keeping it sorted.
Structural helper used to embed the sorting step of `np.percentile`. -/
def insertSorted (x : ℚ) : List ℚ → List ℚ
  | [] => [x]
  | y :: ys => if x ≤ y then x :: y :: ys else y :: insertSorted x ys

/-- Sort a list of rationals in non-decreasing order (insertion sort).
Embeds the sort performed internally by `np.percentile`. -/
def sortQ (xs : List ℚ) : List ℚ := xs.foldr insertSorted []

/-- Embedding of `np.percentile(data, 95)` with numpy's default linear
interpolation: sort the data, take the fractional rank
`pos = 95 * (m - 1) / 100`, and interpolate between the neighbouring
order statistics. -/
def percentile95 (xs : List ℚ) : ℚ :=
  let s := sortQ xs
  let m := s.length
  let pos : ℚ := 95 * ((m : ℚ) - 1) / 100
  let i : ℕ := (⌊pos⌋).toNat
  let lower := s.getD i 0
  let upper := s.getD (i + 1) lower
  lower + (pos - (i : ℚ)) * (upper - lower)

/-- Inputs of the Map Engine part of `process`: the cropped 4-D volume
(`inputVolume4Darray` after the ROI crop) as a time-indexed family of voxel
functions, the cropped binary mask `label`, the three time indices and the
two numeric thresholds.  `voxels` enumerates the cells of the cropped grid
(used for the percentile and the TIC means). -/
structure MapEngineInput where
  voxels : List V3
  volume : ℕ → V3 → ℚ
  label : V3 → Bool
  preContrastIndex : ℕ
  earlyPostContrastIndex : ℕ
  latePostContrastIndex : ℕ
  PEthreshold : ℚ
  BKGRNDthreshold : ℚ

/-- Pre-contrast frame: `St0 = inputVolume4Darray[preContrastIndex, :, :, :]`. -/
def St0 (inp : MapEngineInput) : V3 → ℚ := inp.volume inp.preContrastIndex

/-- Background threshold:
`bckgrnd_thresh = (BKGRNDthreshold/100.0) * np.percentile(St0, 95)`. -/
def bckgrnd_thresh (inp : MapEngineInput) : ℚ :=
  inp.BKGRNDthreshold / 100 * percentile95 (inp.voxels.map (St0 inp))

/-- First base mask: `base_mask = (St0 >= bckgrnd_thresh) & label`. -/
def base_mask_bg (inp : MapEngineInput) (v : V3) : Bool :=
  decide (bckgrnd_thresh inp ≤ St0 inp v) && inp.label v

/-- Early-phase difference: `St1_minus_St0 = St_minus_St0[earlyPostContrastIndex]`. -/
def St1_minus_St0 (inp : MapEngineInput) (v : V3) : ℚ :=
  inp.volume inp.earlyPostContrastIndex v - St0 inp v

/-- Late-phase difference: `Stn_minus_St0 = St_minus_St0[latePostContrastIndex]`. -/
def Stn_minus_St0 (inp : MapEngineInput) (v : V3) : ℚ :=
  inp.volume inp.latePostContrastIndex v - St0 inp v

/-- Raw percentage enhancement: `PE = 100 * St1_minus_St0 / (St0 + EPSILON)`. -/
def PEraw (inp : MapEngineInput) (v : V3) : ℚ :=
  100 * St1_minus_St0 inp v / (St0 inp v + EPSILON)

/-- Mask after the PE threshold: `base_mask &= (PE >= PEthreshold)`. -/
def base_mask_pe (inp : MapEngineInput) (v : V3) : Bool :=
  base_mask_bg inp v && decide (inp.PEthreshold ≤ PEraw inp v)

/-- Masked PE map: `PE = np.where(base_mask, PE, 0)`.  This is the array
written into `PEmapTemplate` and exported as the PE parametric map. -/
def PE (inp : MapEngineInput) (v : V3) : ℚ :=
  if base_mask_pe inp v then PEraw inp v else 0

/-- Raw signal-enhancement ratio:
`SER = St1_minus_St0 / (Stn_minus_St0 + EPSILON)`. -/
def SERraw (inp : MapEngineInput) (v : V3) : ℚ :=
  St1_minus_St0 inp v / (Stn_minus_St0 inp v + EPSILON)

/-- SER after the two clamping assignments `SER[SER < 0.0] = 0.0` and
`SER[SER > INF_THRESHOLD] = 0.0`. -/
def SERclamped (inp : MapEngineInput) (v : V3) : ℚ :=
  if SERraw inp v < 0 then 0
  else if INF_THRESHOLD < SERraw inp v then 0
  else SERraw inp v

/-- Mask after the SER step: `base_mask &= (SER >= 0.0)` (applied to the
already clamped SER). -/
def base_mask_ser (inp : MapEngineInput) (v : V3) : Bool :=
  base_mask_pe inp v && decide ((0 : ℚ) ≤ SERclamped inp v)

/-- Masked SER map: `SER = np.where(base_mask, SER, 0)`.  This is the array
used for classification and exported as the SER parametric map. -/
def SERmasked (inp : MapEngineInput) (v : V3) : ℚ :=
  if base_mask_ser inp v then SERclamped inp v else 0

/-- The 26 non-centre offsets of the 3×3×3 neighbourhood. -/
def nonCenterOffsets : List V3 :=
  [(-1,-1,-1), (-1,-1,0), (-1,-1,1), (-1,0,-1), (-1,0,0), (-1,0,1),
   (-1,1,-1), (-1,1,0), (-1,1,1),
   (0,-1,-1), (0,-1,0), (0,-1,1), (0,0,-1), (0,0,1),
   (0,1,-1), (0,1,0), (0,1,1),
   (1,-1,-1), (1,-1,0), (1,-1,1), (1,0,-1), (1,0,0), (1,0,1),
   (1,1,-1), (1,1,0), (1,1,1)]

/-- All 27 offsets of the 3×3×3 neighbourhood, centre first. -/
def allOffsets : List V3 := (0, 0, 0) :: nonCenterOffsets

/-- Weights of `kernel = np.ones((3,3,3)); kernel[1,1,1] = 100`. -/
def kernelWeight (off : V3) : ℚ := if off = (0, 0, 0) then 100 else 1

/-- Numeric indicator of a boolean (numpy booleans participate in
arithmetic as 0/1). -/
def boolInd (b : Bool) : ℚ := if b then 1 else 0

/-- Zero-padded same-shape 3×3×3 convolution of the boolean base mask:
`convbrmask = signal.convolve(base_mask, kernel, mode='same')`
(the kernel is symmetric, so convolution and correlation coincide). -/
def convbrmask (mask : V3 → Bool) (v : V3) : ℚ :=
  (allOffsets.map (fun off => kernelWeight off * boolInd (mask (v + off)))).sum

/-- Number of true 26-neighbours of `v` in `mask` (zero padding: positions
outside any finite grid are simply `false` in the mask function). -/
def neighborCount (mask : V3 → Bool) (v : V3) : ℕ :=
  nonCenterOffsets.countP (fun off => mask (v + off))

/-- Connectivity-filtered base mask:
`base_mask = (convbrmask >= (100 + PIXEL_CONNECTIVITY))`. -/
def base_mask_conn (inp : MapEngineInput) (v : V3) : Bool :=
  decide (100 + PIXEL_CONNECTIVITY ≤ convbrmask (base_mask_ser inp) v)

/-- Voxels selected by the final mask: `seg_points = np.where(base_mask)`
(taken after the connectivity filtering). -/
def segPoints (inp : MapEngineInput) : List V3 :=
  inp.voxels.filter (base_mask_conn inp)

/-- The classification loop
`for idx, (lb, ub) in enumerate(zip(SERLevelLB, SERLevelUB)):
  SERmap[(SER > lb) & (SER <= ub)] = idx+1`
as a fold over the bin indices; later assignments overwrite earlier ones. -/
def serClassLoop (s : ℚ) : ℕ :=
  (List.range SERLevelLB.length).foldl
    (fun acc idx =>
      if SERLevelLB.getD idx 0 < s ∧ s ≤ SERLevelUB.getD idx 0 then idx + 1 else acc) 0

/-- Classification of one SER value, including the final assignment
`SERmap[SER > SERLevelUB[-1]] = len(SERLevelUB) + 1`. -/
def SERmapRaw (s : ℚ) : ℕ :=
  if SERLevelUB.getD (SERLevelUB.length - 1) 0 < s then SERLevelUB.length + 1
  else serClassLoop s

/-- The exported classification volume: `SERmap *= base_mask`, where
`base_mask` is the connectivity-filtered mask. -/
def SERClassOut (inp : MapEngineInput) (v : V3) : ℕ :=
  SERmapRaw (SERmasked inp v) * (if base_mask_conn inp v then 1 else 0)

/-- Per-timepoint enhancement:
`uptake_ti = 100 * St_minus_St0 / (St0 + EPSILON)`. -/
def uptake (inp : MapEngineInput) (t : ℕ) (v : V3) : ℚ :=
  100 * (inp.volume t v - St0 inp v) / (St0 inp v + EPSILON)

/-- Mean enhancement over the selected voxels at timepoint `t`:
`time_intensity_curve[t, 1] = uptake_ti[t][seg_points].mean()`. -/
def ticMean (inp : MapEngineInput) (t : ℕ) : ℚ :=
  ((segPoints inp).map (uptake inp t)).sum / ((segPoints inp).length : ℚ)

/-- Denominator of the degree-1 least-squares normal equations,
`n * Σx² - (Σx)²`. -/
def lsqDenom (xs : List ℚ) : ℚ :=
  (xs.length : ℚ) * (xs.map (fun x => x * x)).sum - xs.sum * xs.sum

/-- Slope of the degree-1 least-squares fit,
`(n * Σxy - Σx * Σy) / (n * Σx² - (Σx)²)`. -/
def lsqSlope (xs ys : List ℚ) : ℚ :=
  ((xs.length : ℚ) * ((xs.zip ys).map (fun p => p.1 * p.2)).sum - xs.sum * ys.sum) /
    lsqDenom xs

/-- Intercept of the degree-1 least-squares fit, `(Σy - m * Σx) / n`. -/
def lsqIntercept (xs ys : List ℚ) : ℚ :=
  (ys.sum - lsqSlope xs ys * xs.sum) / ((xs.length : ℚ))

/-- Embedding of `simple_linear_fit`: `np.polyfit(time_axis, sample_points, 1)`
is the degree-1 least-squares fit, written here through its closed-form
normal-equation solution, followed by `np.polyval` on the same time axis.
Returns `((m_slope, n_coeff), yeval)`. -/
def simple_linear_fit (time_axis sample_points : List ℚ) : (ℚ × ℚ) × List ℚ :=
  let m := lsqSlope time_axis sample_points
  let n := lsqIntercept time_axis sample_points
  ((m, n), time_axis.map (fun t => m * t + n))

/-- The call site of the fit in `process`:
`self.simple_linear_fit(time_intensity_curve[1:,0], time_intensity_curve[1:,1])`,
i.e. the first row (timepoint 0) is dropped from both columns. -/
def processTICfit (times tic : List ℚ) : (ℚ × ℚ) × List ℚ :=
  simple_linear_fit (times.drop 1) (tic.drop 1)

/-- Synthetic time axis `t = 1, 2, ..., n` used by the linear-fit scenario. -/
def ticTimes (n : ℕ) : List ℚ := (List.range n).map (fun k : ℕ => ((k : ℚ) + 1))

/-- One coordinate of the corner clamping in
`convertRAStoIJKVolumeNodeCoordinates`: `bbox_ijk[bbox_ijk < 0] = 0` followed
by `bbox_ijk[bbox_ijk > dim - 1] = dim - 1` (the `referenceDimensions` array
holds `dim - 1`). -/
def clampIndex (dim x : ℤ) : ℤ :=
  let x1 := if x < 0 then 0 else x
  if x1 > dim - 1 then dim - 1 else x1

/-- One axis of `outputIJK`: `IJKmin = np.min(corners)` and
`IJKmax = np.max(corners) + 1` after clamping both rounded corners. -/
def axisBounds (dim c1 c2 : ℤ) : ℤ × ℤ :=
  (min (clampIndex dim c1) (clampIndex dim c2),
   max (clampIndex dim c1) (clampIndex dim c2) + 1)

/-- Voxel-index bounds of the ROI box (exclusive upper bounds), one pair per
axis, in (z, y, x) order. -/
structure ROIBounds where
  zlo : ℤ
  zhi : ℤ
  ylo : ℤ
  yhi : ℤ
  xlo : ℤ
  xhi : ℤ

/-- The Geometry Resolver output for rounded integer corner coordinates
`(z1, y1, x1)` and `(z2, y2, x2)` inside a grid of dimensions
`(dz, dy, dx)`. -/
def resolvedBounds (dz dy dx z1 y1 x1 z2 y2 x2 : ℤ) : ROIBounds :=
  { zlo := (axisBounds dz z1 z2).1, zhi := (axisBounds dz z1 z2).2,
    ylo := (axisBounds dy y1 y2).1, yhi := (axisBounds dy y1 y2).2,
    xlo := (axisBounds dx x1 x2).1, xhi := (axisBounds dx x1 x2).2 }

/-- Indicator of the ROI box: the fallback array `voi_mask` is zeros with
`voi_mask[zlo:zhi, ylo:yhi, xlo:xhi] = 1`. -/
def inBox (b : ROIBounds) (v : V3) : Bool :=
  decide (b.zlo ≤ v.1 ∧ v.1 < b.zhi) &&
  decide (b.ylo ≤ v.2.1 ∧ v.2.1 < b.yhi) &&
  decide (b.xlo ≤ v.2.2 ∧ v.2.2 < b.xhi)

/-- Enumeration of all cells of an `nz × ny × nx` grid. -/
def fullGrid (nz ny nx : ℕ) : List V3 :=
  (List.range nz).flatMap (fun i =>
    (List.range ny).flatMap (fun j =>
      (List.range nx).map (fun k : ℕ => ((i : ℤ), (j : ℤ), (k : ℤ)))))

/-- The empty-mask fallback of `process`: `if not label.any():` replace the
selected segment by the ROI-box array `voi_mask`, else keep `label`. -/
def fallbackLabel (label : V3 → Bool) (grid : List V3) (b : ROIBounds) : V3 → Bool :=
  if grid.any label = true then label else inBox b

/-- Outcome of one `process` invocation: the two `ValueError` branches, the
early `return` after a declined confirmation, or a completed run carrying
its outputs. -/
inductive ProcessOutcome (α : Type) where
  | invalidInputError : ProcessOutcome α
  | preEqualsEarlyError : ProcessOutcome α
  | abortedByUser : ProcessOutcome α
  | completed : α → ProcessOutcome α
deriving DecidableEq

/-- Input validation prologue of `process`, in program order: missing
volume/mask raises, `preContrastIndex == earlyPostContrastIndex` raises,
`earlyPostContrastIndex == latePostContrastIndex` asks for confirmation and
returns when declined; only then does the numeric pipeline `run`. -/
def processControl {α : Type} (hasVolume hasMask : Bool)
    (pre early late : ℤ) (confirmAnswer : Bool) (run : α) : ProcessOutcome α :=
  if hasVolume = false ∨ hasMask = false then ProcessOutcome.invalidInputError
  else if pre = early then ProcessOutcome.preEqualsEarlyError
  else if early = late ∧ confirmAnswer = false then ProcessOutcome.abortedByUser
  else ProcessOutcome.completed run

/-- Outputs written by an invocation: only a completed run writes maps and
tables. -/
def outputsOf {α : Type} : ProcessOutcome α → Option α
  | ProcessOutcome.completed r => some r
  | _ => none

/-- Legend strings built by `setSERColourMapDict`
(`f'{lb} < SER ≤ {ub}'` for each interval, plus `f'{serMapInterval[-1]} < SER '`). -/
def SERlegend : List String :=
  ["0.0 < SER ≤ 0.9", "0.9 < SER ≤ 1.0", "1.0 < SER ≤ 1.3",
   "1.3 < SER ≤ 1.75", "1.75 < SER ≤ 3.0", "3.0 < SER "]

/-- Default string for out-of-range legend lookups. -/
def noLegend : String := ""

/-- Legend of bin `idx`. -/
def legendAt (idx : ℕ) : String := SERlegend.getD idx noLegend

/-- Per-segment statistics as consumed from the external geometric-statistics
collaborator (`getStatsFromMask`): segment name, `volume_cm3`, `voxel_count`. -/
structure SegStat where
  name : String
  volume_cm3 : ℚ
  voxel_count : ℚ

/-- Row `idx` of the SER-Distribution table.  The loop over the segmentation
inserts, at position `SERlegend.index(segmentName)`, the matched segment's
`volume_cm3` and `100 * voxel_count / FTVstats[1]`; the subsequent loop over
`SERlegendCheck` inserts the untouched legend name with `0.0` volume and
`0.0` distribution for every bin no segment matched. -/
def serDistRow (segments : List SegStat) (ftvVoxelCount : ℚ) (idx : ℕ) :
    String × ℚ × ℚ :=
  match (segments.filter (fun s => s.name = legendAt idx)).getLast? with
  | some s => (s.name, s.volume_cm3, 100 * s.voxel_count / ftvVoxelCount)
  | none => (legendAt idx, 0, 0)

/-- Scale factor `ellipsoidScale = (0.5**3) * (4/3) * np.pi` applied to the
collaborator's enclosing-box volume. -/
noncomputable def ellipsoidScale : ℝ := (1/2)^3 * (4/3) * Real.pi

/-- Value of the "ROI Volume" summary row:
`segmentStats['volume_cm3']['value'] * ellipsoidScale`. -/
noncomputable def roiVolumeValue (boxVolume : ℝ) : ℝ := boxVolume * ellipsoidScale

/-- Scenario input of the testable-property section: a constant volume with
`S0 = 100`, `S(early) = 150`, `S(late) = 120`, mask all true,
`backgroundThresholdPct = 60`, `peakEnhancementThreshold = 10`. -/
def scenarioC1 (voxels : List V3) : MapEngineInput :=
  { voxels := voxels,
    volume := fun t _ => if t = 0 then 100 else if t = 1 then 150 else 120,
    label := fun _ => true,
    preContrastIndex := 0,
    earlyPostContrastIndex := 1,
    latePostContrastIndex := 2,
    PEthreshold := 10,
    BKGRNDthreshold := 60 }

/-- Mask of a 2×2×2 grid, used by the classification counterexample. -/
def cexC3mask (v : V3) : Bool :=
  decide (0 ≤ v.1 ∧ v.1 < 2) && decide (0 ≤ v.2.1 ∧ v.2.1 < 2) &&
  decide (0 ≤ v.2.2 ∧ v.2.2 < 2)

/-- Counterexample input for the classification-range claim: constant
frames `S0 = 100`, `S(early) = 200`, `S(late) = 50`, so that the early
enhancement is strong (PE ≈ 100) but the late phase drops below baseline,
making the raw SER negative and hence clamped to 0. -/
def cexC3 : MapEngineInput :=
  { voxels := fullGrid 2 2 2,
    volume := fun t _ => if t = 0 then 100 else if t = 1 then 200 else 50,
    label := cexC3mask,
    preContrastIndex := 0,
    earlyPostContrastIndex := 1,
    latePostContrastIndex := 2,
    PEthreshold := 10,
    BKGRNDthreshold := 60 }

theorem mem_insertSorted (a x : ℚ) (ys : List ℚ) :
    a ∈ insertSorted x ys ↔ a = x ∨ a ∈ ys := by
  induction ys with
  | nil => simp [insertSorted]
  | cons y ys ih =>
    simp only [insertSorted]
    split
    · simp [List.mem_cons]
    · simp only [List.mem_cons, ih]
      tauto

theorem length_insertSorted (x : ℚ) (ys : List ℚ) :
    (insertSorted x ys).length = ys.length + 1 := by
  induction ys with
  | nil => simp [insertSorted]
  | cons y ys ih =>
    simp only [insertSorted]
    split
    · simp
    · simp [ih]

theorem sortQ_mem (a : ℚ) (xs : List ℚ) : a ∈ sortQ xs ↔ a ∈ xs := by
  induction xs with
  | nil => simp [sortQ]
  | cons x xs ih =>
    have hstep : sortQ (x :: xs) = insertSorted x (sortQ xs) := rfl
    rw [hstep, mem_insertSorted]
    simp only [List.mem_cons]
    rw [ih]

theorem sortQ_length (xs : List ℚ) : (sortQ xs).length = xs.length := by
  induction xs with
  | nil => rfl
  | cons x xs ih =>
    have hstep : sortQ (x :: xs) = insertSorted x (sortQ xs) := rfl
    rw [hstep, length_insertSorted, ih, List.length_cons]

theorem getD_of_all_eq (c d : ℚ) (xs : List ℚ) (hall : ∀ x ∈ xs, x = c) :
    ∀ i, i < xs.length → xs.getD i d = c := by
  induction xs with
  | nil => intro i hi; simp at hi
  | cons x xs ih =>
    intro i hi
    cases i with
    | zero => simpa using hall x (by simp)
    | succ j =>
      have : xs.getD j d = c := by
        refine ih (fun y hy => hall y (by simp [hy])) j ?_
        simpa using hi
      simpa [List.getD_cons_succ] using this

theorem percentile95_const (c : ℚ) (xs : List ℚ) (hne : xs ≠ [])
    (hall : ∀ x ∈ xs, x = c) : percentile95 xs = c := by
  simp only [percentile95]
  have hall' : ∀ x ∈ sortQ xs, x = c := fun x hx => hall x ((sortQ_mem x xs).1 hx)
  have hm : 1 ≤ (sortQ xs).length := by
    rw [sortQ_length]
    cases xs with
    | nil => exact absurd rfl hne
    | cons y ys => simp
  set s := sortQ xs with hs
  set m := s.length with hmdef
  set pos : ℚ := 95 * ((m : ℚ) - 1) / 100 with hposdef
  have hm1 : (1 : ℚ) ≤ (m : ℚ) := by exact_mod_cast hm
  have hpos_le : pos ≤ (m : ℚ) - 1 := by
    rw [hposdef, div_le_iff₀ (by norm_num : (0:ℚ) < 100)]
    nlinarith
  have hfloor_le : ⌊pos⌋ ≤ (m : ℤ) - 1 := by
    have h1 : ⌊pos⌋ ≤ ⌊(m : ℚ) - 1⌋ := Int.floor_le_floor hpos_le
    have h2 : ⌊(m : ℚ) - 1⌋ = (m : ℤ) - 1 := by
      have hcast : ((m : ℚ) - 1) = (((m : ℤ) - 1 : ℤ) : ℚ) := by push_cast; ring
      rw [hcast, Int.floor_intCast]
    omega
  have hi_lt : (⌊pos⌋).toNat < m := by omega
  have hlower : s.getD (⌊pos⌋).toNat 0 = c := getD_of_all_eq c 0 s hall' _ hi_lt
  rw [hlower]
  by_cases hiu : (⌊pos⌋).toNat + 1 < m
  · rw [getD_of_all_eq c c s hall' _ hiu]
    ring
  · rw [List.getD_eq_default]
    · ring
    · omega

theorem sum_map_affine (a b : ℚ) (l : List ℚ) :
    (l.map (fun x => a * x + b)).sum = a * l.sum + b * (l.length : ℚ) := by
  induction l with
  | nil => simp
  | cons y ys ih =>
    simp only [List.map_cons, List.sum_cons, ih, List.length_cons]
    push_cast
    ring

theorem sum_map_mul_affine (a b : ℚ) (l : List ℚ) :
    (l.map (fun x => x * (a * x + b))).sum
      = a * (l.map (fun x => x * x)).sum + b * l.sum := by
  induction l with
  | nil => simp
  | cons y ys ih =>
    simp only [List.map_cons, List.sum_cons, ih]
    ring

theorem zip_self_map (f : ℚ → ℚ) (xs : List ℚ) :
    ((xs.zip (xs.map f)).map (fun p => p.1 * p.2)).sum
      = (xs.map (fun x => x * f x)).sum := by
  have h1 : xs.zip (xs.map f) = xs.map (fun a => (a, f a)) := by
    have := List.zip_map' (fun a : ℚ => a) f xs
    simpa using this
  rw [h1, List.map_map]
  rfl

theorem lsq_affine_fit (a b : ℚ) (xs : List ℚ) (hden : lsqDenom xs ≠ 0) :
    lsqSlope xs (xs.map (fun x => a * x + b)) = a ∧
    lsqIntercept xs (xs.map (fun x => a * x + b)) = b := by
  have hn : ((xs.length : ℚ)) ≠ 0 := by
    intro h0
    apply hden
    have hlen : xs.length = 0 := by exact_mod_cast h0
    have hxs : xs = [] := List.length_eq_zero.mp hlen
    simp [hxs, lsqDenom]
  have hslope : lsqSlope xs (xs.map (fun x => a * x + b)) = a := by
    unfold lsqSlope
    rw [zip_self_map, sum_map_mul_affine, sum_map_affine]
    rw [div_eq_iff hden]
    unfold lsqDenom
    ring
  refine ⟨hslope, ?_⟩
  unfold lsqIntercept
  rw [hslope, sum_map_affine]
  field_simp

theorem ticTimes_length (n : ℕ) : (ticTimes n).length = n := by
  rw [ticTimes, List.length_map, List.length_range]

theorem ticTimes_sum (n : ℕ) :
    (ticTimes n).sum = (n : ℚ) * ((n : ℚ) + 1) / 2 := by
  induction n with
  | zero => simp [ticTimes]
  | succ k ih =>
    have hstep : ticTimes (k + 1) = ticTimes k ++ [((k : ℚ) + 1)] := by
      simp [ticTimes, List.range_succ]
    rw [hstep, List.sum_append, ih]
    simp only [List.sum_cons, List.sum_nil]
    push_cast
    ring

theorem ticTimes_sum_sq (n : ℕ) :
    ((ticTimes n).map (fun x => x * x)).sum
      = (n : ℚ) * ((n : ℚ) + 1) * (2 * (n : ℚ) + 1) / 6 := by
  induction n with
  | zero => simp [ticTimes]
  | succ k ih =>
    have hstep : ticTimes (k + 1) = ticTimes k ++ [((k : ℚ) + 1)] := by
      simp [ticTimes, List.range_succ]
    rw [hstep, List.map_append, List.sum_append, ih]
    simp only [List.map_cons, List.map_nil, List.sum_cons, List.sum_nil]
    push_cast
    ring

theorem lsqDenom_ticTimes (n : ℕ) :
    lsqDenom (ticTimes n) = (n : ℚ)^2 * ((n : ℚ) + 1) * ((n : ℚ) - 1) / 12 := by
  unfold lsqDenom
  rw [ticTimes_length, ticTimes_sum, ticTimes_sum_sq]
  ring

theorem lsqDenom_ticTimes_ne_zero (n : ℕ) (hn : 2 ≤ n) :
    lsqDenom (ticTimes n) ≠ 0 := by
  rw [lsqDenom_ticTimes]
  have h2 : (2 : ℚ) ≤ (n : ℚ) := by exact_mod_cast hn
  have hpos : (0 : ℚ) < (n : ℚ)^2 * ((n : ℚ) + 1) * ((n : ℚ) - 1) / 12 := by
    have ha : (0 : ℚ) < (n : ℚ)^2 := by nlinarith
    have hb : (0 : ℚ) < (n : ℚ) + 1 := by linarith
    have hc : (0 : ℚ) < (n : ℚ) - 1 := by linarith
    positivity
  exact ne_of_gt hpos

theorem boolInd_sum_countP (p : V3 → Bool) (l : List V3) :
    (l.map (fun a => boolInd (p a))).sum = ((l.countP p : ℕ) : ℚ) := by
  induction l with
  | nil => simp
  | cons x xs ih =>
    simp only [List.map_cons, List.sum_cons, ih, List.countP_cons]
    cases hpx : p x
    · simp [boolInd, hpx]
    · simp only [boolInd, hpx, if_true]
      push_cast
      ring

theorem convbrmask_char (mask : V3 → Bool) (v : V3) :
    convbrmask mask v
      = 100 * boolInd (mask v) + ((neighborCount mask v : ℕ) : ℚ) := by
  unfold convbrmask neighborCount allOffsets
  rw [List.map_cons, List.sum_cons]
  have hker0 : kernelWeight ((0, 0, 0) : V3) = 100 := rfl
  have hv0 : v + ((0, 0, 0) : V3) = v := by
    obtain ⟨a, b, c⟩ := v
    simp
  rw [hker0, hv0]
  have hmap : nonCenterOffsets.map (fun off => kernelWeight off * boolInd (mask (v + off)))
      = nonCenterOffsets.map (fun off => boolInd (mask (v + off))) := by
    apply List.map_congr_left
    intro off hoff
    have hne : ¬ off = ((0, 0, 0) : V3) := by
      intro h
      rw [h] at hoff
      revert hoff
      decide
    have hw : kernelWeight off = 1 := by
      unfold kernelWeight
      rw [if_neg hne]
    rw [hw, one_mul]
  rw [hmap, boolInd_sum_countP]

theorem neighborCount_le_26 (mask : V3 → Bool) (v : V3) :
    neighborCount mask v ≤ 26 := by
  have h := List.countP_le_length (fun off => mask (v + off)) (l := nonCenterOffsets)
  have hlen : nonCenterOffsets.length = 26 := rfl
  unfold neighborCount
  omega

theorem base_mask_conn_iff (inp : MapEngineInput) (v : V3) :
    base_mask_conn inp v = true ↔
      (base_mask_ser inp v = true ∧ 4 ≤ neighborCount (base_mask_ser inp) v) := by
  unfold base_mask_conn PIXEL_CONNECTIVITY
  rw [decide_eq_true_eq, convbrmask_char]
  have hle : ((neighborCount (base_mask_ser inp) v : ℕ) : ℚ) ≤ 26 := by
    exact_mod_cast neighborCount_le_26 (base_mask_ser inp) v
  cases hmask : base_mask_ser inp v
  · simp only [boolInd, Bool.false_eq_true, if_false, mul_zero, zero_add]
    constructor
    · intro h
      linarith
    · rintro ⟨h, _⟩
      exact absurd h (by simp)
  · simp only [boolInd, if_true, mul_one, true_and]
    constructor
    · intro h
      have : (4 : ℚ) ≤ ((neighborCount (base_mask_ser inp) v : ℕ) : ℚ) := by linarith
      exact_mod_cast this
    · intro h
      have : (4 : ℚ) ≤ ((neighborCount (base_mask_ser inp) v : ℕ) : ℚ) := by exact_mod_cast h
      linarith

theorem serClassLoop_unfold (s : ℚ) : serClassLoop s =
    if 7/4 < s ∧ s ≤ 3 then 5
    else if 13/10 < s ∧ s ≤ 7/4 then 4
    else if 1 < s ∧ s ≤ 13/10 then 3
    else if 9/10 < s ∧ s ≤ 1 then 2
    else if 0 < s ∧ s ≤ 9/10 then 1
    else 0 := rfl

theorem SERmapRaw_unfold (s : ℚ) : SERmapRaw s =
    if 3 < s then 6
    else if 7/4 < s ∧ s ≤ 3 then 5
    else if 13/10 < s ∧ s ≤ 7/4 then 4
    else if 1 < s ∧ s ≤ 13/10 then 3
    else if 9/10 < s ∧ s ≤ 1 then 2
    else if 0 < s ∧ s ≤ 9/10 then 1
    else 0 := rfl

theorem SERmapRaw_le_6 (s : ℚ) : SERmapRaw s ≤ 6 := by
  rw [SERmapRaw_unfold]
  split_ifs <;> omega

theorem SERmapRaw_zero : SERmapRaw 0 = 0 := by
  rw [SERmapRaw_unfold]
  norm_num

theorem mem_fullGrid (nz ny nx : ℕ) (v : V3) :
    v ∈ fullGrid nz ny nx ↔
      (0 ≤ v.1 ∧ v.1 < (nz : ℤ) ∧ 0 ≤ v.2.1 ∧ v.2.1 < (ny : ℤ) ∧
       0 ≤ v.2.2 ∧ v.2.2 < (nx : ℤ)) := by
  obtain ⟨a, b, c⟩ := v
  simp only [fullGrid, List.mem_flatMap, List.mem_map, List.mem_range]
  constructor
  · rintro ⟨i, hi, j, hj, k, hk, heq⟩
    simp only [Prod.mk.injEq] at heq
    obtain ⟨h1, h2, h3⟩ := heq
    subst h1
    subst h2
    subst h3
    refine ⟨by omega, by omega, by omega, by omega, by omega, by omega⟩
  · rintro ⟨h1, h2, h3, h4, h5, h6⟩
    refine ⟨a.toNat, by omega, b.toNat, by omega, c.toNat, by omega, ?_⟩
    simp only [Prod.mk.injEq]
    omega

theorem axisBounds_valid (dim c1 c2 : ℤ) (hd : 1 ≤ dim) :
    0 ≤ (axisBounds dim c1 c2).1 ∧
    (axisBounds dim c1 c2).1 < (axisBounds dim c1 c2).2 ∧
    (axisBounds dim c1 c2).2 ≤ dim := by
  simp only [axisBounds, clampIndex]
  split_ifs <;> refine ⟨?_, ?_, ?_⟩ <;> omega

theorem bckgrnd_thresh_const100 (inp : MapEngineInput) (hvox : inp.voxels ≠ [])
    (hS : ∀ v, St0 inp v = 100) (hB : inp.BKGRNDthreshold = 60) :
    bckgrnd_thresh inp = 60 := by
  unfold bckgrnd_thresh
  rw [hB, percentile95_const 100]
  · norm_num
  · intro h
    exact hvox (by simpa using h)
  · intro x hx
    obtain ⟨a, _, rfl⟩ := List.mem_map.mp hx
    exact hS a

theorem scenarioC1_eval (voxels : List V3) (hne : voxels ≠ []) (v : V3) :
    base_mask_pe (scenarioC1 voxels) v = true ∧
    PE (scenarioC1 voxels) v = 5000000000 / 100000001 := by
  have hS : ∀ w : V3, St0 (scenarioC1 voxels) w = 100 := fun _ => rfl
  have hthresh : bckgrnd_thresh (scenarioC1 voxels) = 60 :=
    bckgrnd_thresh_const100 (scenarioC1 voxels) hne hS rfl
  have hPEraw : PEraw (scenarioC1 voxels) v = 5000000000 / 100000001 := by
    unfold PEraw St1_minus_St0 St0 scenarioC1 EPSILON
    norm_num
  have hbg : base_mask_bg (scenarioC1 voxels) v = true := by
    unfold base_mask_bg
    rw [hthresh, hS v]
    have hlabel : (scenarioC1 voxels).label v = true := rfl
    rw [hlabel, Bool.and_true, decide_eq_true_eq]
    norm_num
  have hpe : base_mask_pe (scenarioC1 voxels) v = true := by
    unfold base_mask_pe
    rw [hbg, hPEraw, Bool.true_and, decide_eq_true_eq]
    have hthr : (scenarioC1 voxels).PEthreshold = 10 := rfl
    rw [hthr]
    norm_num
  refine ⟨hpe, ?_⟩
  unfold PE
  rw [hpe, if_pos rfl, hPEraw]

theorem cexC3_mask_eval (v : V3) : base_mask_ser cexC3 v = cexC3mask v := by
  have hS : ∀ w : V3, St0 cexC3 w = 100 := fun _ => rfl
  have hvox : cexC3.voxels ≠ [] := by
    have : cexC3.voxels = fullGrid 2 2 2 := rfl
    rw [this]
    decide
  have hthresh : bckgrnd_thresh cexC3 = 60 :=
    bckgrnd_thresh_const100 cexC3 hvox hS rfl
  have hbg : base_mask_bg cexC3 v = cexC3mask v := by
    unfold base_mask_bg
    rw [hthresh, hS v]
    have hlabel : cexC3.label v = cexC3mask v := rfl
    rw [hlabel]
    have h60 : decide ((60 : ℚ) ≤ 100) = true := by
      rw [decide_eq_true_eq]
      norm_num
    rw [h60, Bool.true_and]
  have hPEraw : PEraw cexC3 v = 10000000000 / 100000001 := by
    unfold PEraw St1_minus_St0 St0 cexC3 EPSILON
    norm_num
  have hpe : base_mask_pe cexC3 v = cexC3mask v := by
    unfold base_mask_pe
    rw [hbg, hPEraw]
    have hthr : cexC3.PEthreshold = 10 := rfl
    rw [hthr]
    have h10 : decide ((10 : ℚ) ≤ 10000000000 / 100000001) = true := by
      rw [decide_eq_true_eq]
      norm_num
    rw [h10, Bool.and_true]
  have hclamp : SERclamped cexC3 v = 0 := by
    have hraw : SERraw cexC3 v = -(100000000 / 49999999) := by
      unfold SERraw St1_minus_St0 Stn_minus_St0 St0 cexC3 EPSILON
      norm_num
    unfold SERclamped
    rw [hraw]
    norm_num
  unfold base_mask_ser
  rw [hpe, hclamp]
  have h0 : decide ((0 : ℚ) ≤ 0) = true := by
    rw [decide_eq_true_eq]
  rw [h0, Bool.and_true]

theorem cexC3_SERmasked_eval : SERmasked cexC3 ((0 : ℤ), (0 : ℤ), (0 : ℤ)) = 0 := by
  have hclamp : SERclamped cexC3 ((0 : ℤ), (0 : ℤ), (0 : ℤ)) = 0 := by
    have hraw : SERraw cexC3 ((0 : ℤ), (0 : ℤ), (0 : ℤ)) = -(100000000 / 49999999) := by
      unfold SERraw St1_minus_St0 Stn_minus_St0 St0 cexC3 EPSILON
      norm_num
    unfold SERclamped
    rw [hraw]
    norm_num
  unfold SERmasked
  rw [hclamp]
  split_ifs <;> rfl

theorem SERmapRaw_bin1 (s : ℚ) (h1 : 0 < s) (h2 : s ≤ 9/10) : SERmapRaw s = 1 := by
  rw [SERmapRaw_unfold]
  rw [if_neg (not_lt.mpr (by linarith))]
  rw [if_neg (by rintro ⟨hx, -⟩; linarith)]
  rw [if_neg (by rintro ⟨hx, -⟩; linarith)]
  rw [if_neg (by rintro ⟨hx, -⟩; linarith)]
  rw [if_neg (by rintro ⟨hx, -⟩; linarith)]
  rw [if_pos ⟨h1, h2⟩]

theorem SERmapRaw_bin2 (s : ℚ) (h1 : 9/10 < s) (h2 : s ≤ 1) : SERmapRaw s = 2 := by
  rw [SERmapRaw_unfold]
  rw [if_neg (not_lt.mpr (by linarith))]
  rw [if_neg (by rintro ⟨hx, -⟩; linarith)]
  rw [if_neg (by rintro ⟨hx, -⟩; linarith)]
  rw [if_neg (by rintro ⟨hx, -⟩; linarith)]
  rw [if_pos ⟨h1, h2⟩]

theorem SERmapRaw_bin3 (s : ℚ) (h1 : 1 < s) (h2 : s ≤ 13/10) : SERmapRaw s = 3 := by
  rw [SERmapRaw_unfold]
  rw [if_neg (not_lt.mpr (by linarith))]
  rw [if_neg (by rintro ⟨hx, -⟩; linarith)]
  rw [if_neg (by rintro ⟨hx, -⟩; linarith)]
  rw [if_pos ⟨h1, h2⟩]

theorem SERmapRaw_bin4 (s : ℚ) (h1 : 13/10 < s) (h2 : s ≤ 7/4) : SERmapRaw s = 4 := by
  rw [SERmapRaw_unfold]
  rw [if_neg (not_lt.mpr (by linarith))]
  rw [if_neg (by rintro ⟨hx, -⟩; linarith)]
  rw [if_pos ⟨h1, h2⟩]

theorem SERmapRaw_bin5 (s : ℚ) (h1 : 7/4 < s) (h2 : s ≤ 3) : SERmapRaw s = 5 := by
  rw [SERmapRaw_unfold]
  rw [if_neg (not_lt.mpr h2)]
  rw [if_pos ⟨h1, h2⟩]

/-- C1 (amended): the Map Engine computes the background threshold as
`(backgroundThresholdPct/100) * 95th-percentile(S0)`, the base mask as
`(S0 >= threshold) & mask`, `PE = 100*(volume[earlyIndex]-S0)/(S0+1e-6)`,
restricts the mask to `PE >= peakEnhancementThreshold` and zeroes PE
outside it; in the constant scenario `S0 = 100`, `S(early) = 150` every
voxel is inside the mask and gets `PE = 5000000000/100000001`
(that is `5000/(100 + 1e-6)`, within `5.0e-7` of 50, but not exactly 50
because of the epsilon guard in the denominator). -/
theorem mapEngine_PE_pipeline_constant_scenario (inp : MapEngineInput) (v : V3)
    (voxels : List V3) (hne : voxels ≠ []) :
    bckgrnd_thresh inp
        = inp.BKGRNDthreshold / 100 * percentile95 (inp.voxels.map (St0 inp)) ∧
    base_mask_bg inp v = (decide (bckgrnd_thresh inp ≤ St0 inp v) && inp.label v) ∧
    PEraw inp v
        = 100 * (inp.volume inp.earlyPostContrastIndex v - St0 inp v)
            / (St0 inp v + EPSILON) ∧
    EPSILON = 1 / 1000000 ∧
    base_mask_pe inp v
        = (base_mask_bg inp v && decide (inp.PEthreshold ≤ PEraw inp v)) ∧
    PE inp v = (if base_mask_pe inp v then PEraw inp v else 0) ∧
    (base_mask_pe (scenarioC1 voxels) v = true ∧
     PE (scenarioC1 voxels) v = 5000000000 / 100000001) :=
  ⟨rfl, rfl, rfl, rfl, rfl, rfl, scenarioC1_eval voxels hne v⟩

/-- Witness for the amended C1 theorem at a one-voxel grid. -/
theorem mapEngine_PE_pipeline_constant_scenario_witness :
    ([((0 : ℤ), (0 : ℤ), (0 : ℤ))] : List V3) ≠ [] ∧
    PE (scenarioC1 [((0 : ℤ), (0 : ℤ), (0 : ℤ))]) ((0 : ℤ), (0 : ℤ), (0 : ℤ))
      = 5000000000 / 100000001 :=
  ⟨by simp,
   (mapEngine_PE_pipeline_constant_scenario
      (scenarioC1 [((0 : ℤ), (0 : ℤ), (0 : ℤ))]) ((0 : ℤ), (0 : ℤ), (0 : ℤ))
      [((0 : ℤ), (0 : ℤ), (0 : ℤ))] (by simp)).2.2.2.2.2.2.2⟩

/-- C1 counterexample: in the constant scenario `S0 = 100`, `S(early) = 150`
the origin voxel is inside the background/PE mask, yet its PE value is not
exactly 50 (it is `5000/(100 + 1e-6)`). -/
theorem PE_constant_scenario_not_fifty :
    base_mask_pe (scenarioC1 [((0 : ℤ), (0 : ℤ), (0 : ℤ))])
        ((0 : ℤ), (0 : ℤ), (0 : ℤ)) = true ∧
    PE (scenarioC1 [((0 : ℤ), (0 : ℤ), (0 : ℤ))]) ((0 : ℤ), (0 : ℤ), (0 : ℤ)) ≠ 50 := by
  obtain ⟨hmask, hval⟩ :=
    scenarioC1_eval [((0 : ℤ), (0 : ℤ), (0 : ℤ))] (by simp) ((0 : ℤ), (0 : ℤ), (0 : ℤ))
  refine ⟨hmask, ?_⟩
  rw [hval]
  norm_num

/-- C2: for any input with a non-negative PE threshold (the spec's validity
range for `peakEnhancementThreshold`), the masked PE output is element-wise
non-negative, the masked SER output lies in `[0, INF_THRESHOLD]`, and raw
SER values below 0 or above the upper clamp threshold are clamped to 0. -/
theorem PE_SER_nonneg_SER_le_upper (inp : MapEngineInput) (v : V3)
    (hthr : 0 ≤ inp.PEthreshold) :
    0 ≤ PE inp v ∧
    0 ≤ SERmasked inp v ∧
    SERmasked inp v ≤ INF_THRESHOLD ∧
    (SERraw inp v < 0 → SERclamped inp v = 0) ∧
    (INF_THRESHOLD < SERraw inp v → SERclamped inp v = 0) := by
  have hclamp : 0 ≤ SERclamped inp v ∧ SERclamped inp v ≤ INF_THRESHOLD := by
    unfold SERclamped
    split_ifs with hneg hbig
    · exact ⟨le_refl 0, by norm_num [INF_THRESHOLD]⟩
    · exact ⟨le_refl 0, by norm_num [INF_THRESHOLD]⟩
    · exact ⟨not_lt.mp hneg, not_lt.mp hbig⟩
  refine ⟨?_, ?_, ?_, ?_, ?_⟩
  · unfold PE
    split_ifs with hmask
    · unfold base_mask_pe at hmask
      rw [Bool.and_eq_true] at hmask
      have hcond := hmask.2
      rw [decide_eq_true_eq] at hcond
      linarith
    · exact le_refl 0
  · unfold SERmasked
    split_ifs with hmask
    · exact hclamp.1
    · exact le_refl 0
  · unfold SERmasked
    split_ifs with hmask
    · exact hclamp.2
    · norm_num [INF_THRESHOLD]
  · intro hneg
    unfold SERclamped
    rw [if_pos hneg]
  · intro hbig
    unfold SERclamped
    split_ifs with hneg
    · rfl
    · rfl

/-- Witness for the C2 theorem at the constant scenario input. -/
theorem PE_SER_nonneg_SER_le_upper_witness :
    0 ≤ (scenarioC1 [((0 : ℤ), (0 : ℤ), (0 : ℤ))]).PEthreshold ∧
    0 ≤ PE (scenarioC1 [((0 : ℤ), (0 : ℤ), (0 : ℤ))]) ((0 : ℤ), (0 : ℤ), (0 : ℤ)) :=
  ⟨by norm_num [scenarioC1],
   (PE_SER_nonneg_SER_le_upper (scenarioC1 [((0 : ℤ), (0 : ℤ), (0 : ℤ))])
      ((0 : ℤ), (0 : ℤ), (0 : ℤ)) (by norm_num [scenarioC1])).1⟩

/-- C3 (amended): `SERClass` is 0 wherever the (connectivity-filtered) base
mask is false and lies in `{0, ..., N+1}` (`N = 5` bins, so at most 6)
elsewhere; inside the mask, class `i+1` is assigned where
`lb_i < SER <= ub_i` and class `N+1` where `SER` exceeds the last upper
bound, but class 0 also occurs inside the mask, namely wherever the
clamped SER is at most the first lower bound `0`. -/
theorem SERClass_range_and_bins (inp : MapEngineInput) (v : V3) :
    (base_mask_conn inp v = false → SERClassOut inp v = 0) ∧
    SERClassOut inp v ≤ 6 ∧
    (base_mask_conn inp v = true →
      (3 < SERmasked inp v → SERClassOut inp v = 6) ∧
      (∀ i : ℕ, i < 5 →
        SERLevelLB.getD i 0 < SERmasked inp v ∧ SERmasked inp v ≤ SERLevelUB.getD i 0 →
        SERClassOut inp v = i + 1)) := by
  refine ⟨?_, ?_, ?_⟩
  · intro h
    unfold SERClassOut
    rw [h]
    simp
  · unfold SERClassOut
    split_ifs with h
    · rw [mul_one]
      exact SERmapRaw_le_6 (SERmasked inp v)
    · simp
  · intro hconn
    unfold SERClassOut
    rw [hconn, if_pos rfl, mul_one]
    constructor
    · intro h3
      rw [SERmapRaw_unfold, if_pos h3]
    · intro i hi hbound
      interval_cases i
      · simp only [SERLevelLB, SERLevelUB, List.getD_cons_zero] at hbound
        exact SERmapRaw_bin1 _ hbound.1 hbound.2
      · simp only [SERLevelLB, SERLevelUB, List.getD_cons_succ,
          List.getD_cons_zero] at hbound
        exact SERmapRaw_bin2 _ hbound.1 hbound.2
      · simp only [SERLevelLB, SERLevelUB, List.getD_cons_succ,
          List.getD_cons_zero] at hbound
        exact SERmapRaw_bin3 _ hbound.1 hbound.2
      · simp only [SERLevelLB, SERLevelUB, List.getD_cons_succ,
          List.getD_cons_zero] at hbound
        exact SERmapRaw_bin4 _ hbound.1 hbound.2
      · simp only [SERLevelLB, SERLevelUB, List.getD_cons_succ,
          List.getD_cons_zero] at hbound
        exact SERmapRaw_bin5 _ hbound.1 hbound.2

/-- Witness for the amended C3 theorem at the washout counterexample input. -/
theorem SERClass_range_and_bins_witness :
    SERClassOut cexC3 ((0 : ℤ), (0 : ℤ), (0 : ℤ)) ≤ 6 :=
  (SERClass_range_and_bins cexC3 ((0 : ℤ), (0 : ℤ), (0 : ℤ))).2.1

/-- C3 counterexample: for the washout input `cexC3` (early enhancement
strong, late signal below baseline) the origin voxel survives every mask
stage including the connectivity filter, yet its `SERClass` is 0 — so
inside the base mask the class is NOT confined to `{1, ..., N+1}`. -/
theorem SERClass_zero_inside_mask :
    base_mask_conn cexC3 ((0 : ℤ), (0 : ℤ), (0 : ℤ)) = true ∧
    SERClassOut cexC3 ((0 : ℤ), (0 : ℤ), (0 : ℤ)) = 0 := by
  have hfun : base_mask_ser cexC3 = cexC3mask := funext cexC3_mask_eval
  constructor
  · rw [base_mask_conn_iff]
    constructor
    · rw [cexC3_mask_eval]
      decide
    · rw [hfun]
      decide
  · unfold SERClassOut
    rw [cexC3_SERmasked_eval, SERmapRaw_zero, zero_mul]

/-- C4: when the supplied mask is all-false on the grid, the orchestrator
substitutes the ROI-box mask — true exactly on the resolver's voxel-index
ranges, false elsewhere — and, because the resolver's clamped bounds are
always non-empty inside a non-degenerate grid, the substituted mask holds
at least one grid voxel, so the Map Engine never runs on an all-false mask. -/
theorem emptyMask_fallback_roi_box (label : V3 → Bool) (nz ny nx : ℕ)
    (z1 y1 x1 z2 y2 x2 : ℤ)
    (hz : 1 ≤ nz) (hy : 1 ≤ ny) (hx : 1 ≤ nx)
    (hempty : (fullGrid nz ny nx).any label = false) :
    fallbackLabel label (fullGrid nz ny nx)
        (resolvedBounds (nz : ℤ) (ny : ℤ) (nx : ℤ) z1 y1 x1 z2 y2 x2)
      = inBox (resolvedBounds (nz : ℤ) (ny : ℤ) (nx : ℤ) z1 y1 x1 z2 y2 x2) ∧
    ∃ v : V3, v ∈ fullGrid nz ny nx ∧
      inBox (resolvedBounds (nz : ℤ) (ny : ℤ) (nx : ℤ) z1 y1 x1 z2 y2 x2) v = true := by
  have hvz := axisBounds_valid (nz : ℤ) z1 z2 (by exact_mod_cast hz)
  have hvy := axisBounds_valid (ny : ℤ) y1 y2 (by exact_mod_cast hy)
  have hvx := axisBounds_valid (nx : ℤ) x1 x2 (by exact_mod_cast hx)
  set b := resolvedBounds (nz : ℤ) (ny : ℤ) (nx : ℤ) z1 y1 x1 z2 y2 x2 with hb
  have hbz1 : b.zlo = (axisBounds (nz : ℤ) z1 z2).1 := rfl
  have hbz2 : b.zhi = (axisBounds (nz : ℤ) z1 z2).2 := rfl
  have hby1 : b.ylo = (axisBounds (ny : ℤ) y1 y2).1 := rfl
  have hby2 : b.yhi = (axisBounds (ny : ℤ) y1 y2).2 := rfl
  have hbx1 : b.xlo = (axisBounds (nx : ℤ) x1 x2).1 := rfl
  have hbx2 : b.xhi = (axisBounds (nx : ℤ) x1 x2).2 := rfl
  constructor
  · unfold fallbackLabel
    rw [hempty]
    simp
  · refine ⟨(b.zlo, b.ylo, b.xlo), ?_, ?_⟩
    · rw [mem_fullGrid]
      refine ⟨?_, ?_, ?_, ?_, ?_, ?_⟩ <;>
        simp only [hbz1, hbz2, hby1, hby2, hbx1, hbx2] at hvz hvy hvx ⊢ <;> omega
    · simp only [inBox, Bool.and_eq_true, decide_eq_true_eq]
      refine ⟨⟨⟨le_refl _, ?_⟩, le_refl _, ?_⟩, le_refl _, ?_⟩ <;> omega

/-- Witness for the C4 theorem on a 2×2×2 grid with an all-false mask and
ROI corners (0,0,0) and (1,1,1). -/
theorem emptyMask_fallback_roi_box_witness :
    (fullGrid 2 2 2).any (fun _ => false) = false ∧
    ∃ v : V3, v ∈ fullGrid 2 2 2 ∧
      inBox (resolvedBounds 2 2 2 0 0 0 1 1 1) v = true := by
  refine ⟨by decide, ?_⟩
  have h := emptyMask_fallback_roi_box (fun _ => false) 2 2 2 0 0 0 1 1 1
    (by norm_num) (by norm_num) (by norm_num) (by decide)
  exact_mod_cast h.2

/-- C5: `process` produces no output before validation completes: a missing
volume or mask yields the invalid-input error, `pre == early` yields the
index error, and `early == late` with a declined confirmation returns
without raising; in all three cases no map, table, or other output is
written. -/
theorem process_validation_no_partial_output (α : Type) (hasVolume hasMask : Bool)
    (pre early late : ℤ) (confirmAnswer : Bool) (run : α) :
    ((hasVolume = false ∨ hasMask = false) →
      processControl hasVolume hasMask pre early late confirmAnswer run
          = ProcessOutcome.invalidInputError ∧
      outputsOf (processControl hasVolume hasMask pre early late confirmAnswer run)
          = none) ∧
    (hasVolume = true → hasMask = true → pre = early →
      processControl hasVolume hasMask pre early late confirmAnswer run
          = ProcessOutcome.preEqualsEarlyError ∧
      outputsOf (processControl hasVolume hasMask pre early late confirmAnswer run)
          = none) ∧
    (hasVolume = true → hasMask = true → pre ≠ early → early = late →
      confirmAnswer = false →
      processControl hasVolume hasMask pre early late confirmAnswer run
          = ProcessOutcome.abortedByUser ∧
      outputsOf (processControl hasVolume hasMask pre early late confirmAnswer run)
          = none) := by
  refine ⟨?_, ?_, ?_⟩
  · intro h
    simp only [processControl]
    rw [if_pos h]
    exact ⟨rfl, rfl⟩
  · intro hv hm hpe
    have hnot : ¬(hasVolume = false ∨ hasMask = false) := by simp [hv, hm]
    simp only [processControl]
    rw [if_neg hnot, if_pos hpe]
    exact ⟨rfl, rfl⟩
  · intro hv hm hpe hel hc
    have hnot : ¬(hasVolume = false ∨ hasMask = false) := by simp [hv, hm]
    simp only [processControl]
    rw [if_neg hnot, if_neg hpe, if_pos ⟨hel, hc⟩]
    exact ⟨rfl, rfl⟩

/-- Witness for the C5 theorem: `pre == early` on an otherwise valid call. -/
theorem process_validation_no_partial_output_witness :
    processControl true true 0 0 1 true (42 : ℕ)
        = ProcessOutcome.preEqualsEarlyError ∧
    outputsOf (processControl true true 0 0 1 true (42 : ℕ)) = none :=
  (process_validation_no_partial_output ℕ true true 0 0 1 true 42).2.1 rfl rfl rfl

/-- C6: the Curve Fitter computes
`uptake[t] = 100*(volume[t]-volume[preIndex])/(volume[preIndex]+eps)` at
every timepoint, sets `TIC[t]` to the mean of `uptake[t]` over the mask
voxels, and fits the degree-1 polynomial over all timepoints except `t = 0`;
on the synthetic linear TIC `2*t + 5` for `t = 1..n` the fit returns slope 2
and intercept 5 exactly (in exact arithmetic), regardless of the value at
the excluded timepoint 0. -/
theorem curveFitter_tic_and_linear_fit (inp : MapEngineInput) (t : ℕ) (v : V3)
    (n : ℕ) (hn : 2 ≤ n) (y0 : ℚ) :
    uptake inp t v
        = 100 * (inp.volume t v - St0 inp v) / (St0 inp v + EPSILON) ∧
    ticMean inp t
        = ((segPoints inp).map (uptake inp t)).sum / ((segPoints inp).length : ℚ) ∧
    (processTICfit ((0 : ℚ) :: ticTimes n)
        (y0 :: (ticTimes n).map (fun x => 2 * x + 5))).1 = (2, 5) := by
  refine ⟨rfl, rfl, ?_⟩
  have hstep : processTICfit ((0 : ℚ) :: ticTimes n)
      (y0 :: (ticTimes n).map (fun x => 2 * x + 5))
      = simple_linear_fit (ticTimes n) ((ticTimes n).map (fun x => 2 * x + 5)) := rfl
  rw [hstep]
  obtain ⟨hs, hi⟩ := lsq_affine_fit 2 5 (ticTimes n) (lsqDenom_ticTimes_ne_zero n hn)
  simp only [simple_linear_fit]
  rw [hs, hi]

/-- Witness for the C6 theorem with `n = 2` and a zero pre-contrast row. -/
theorem curveFitter_tic_and_linear_fit_witness :
    (2 : ℕ) ≤ 2 ∧
    (processTICfit ((0 : ℚ) :: ticTimes 2)
        ((0 : ℚ) :: (ticTimes 2).map (fun x => 2 * x + 5))).1 = (2, 5) :=
  ⟨le_refl 2,
   (curveFitter_tic_and_linear_fit cexC3 0 ((0 : ℤ), (0 : ℤ), (0 : ℤ)) 2
      (le_refl 2) 0).2.2⟩

/-- C7 counterexample: the only 3×3×3 convolution in `process` uses the
kernel `np.ones((3,3,3))` with the centre weight set to 100; its weights sum
to 126, not 1, so it is not a normalized uniform averaging kernel. -/
theorem conv_kernel_not_normalized :
    (allOffsets.map kernelWeight).sum = 126 ∧
    ¬ (allOffsets.map kernelWeight).sum = 1 ∧
    kernelWeight ((0 : ℤ), (0 : ℤ), (0 : ℤ)) = 100 := by
  have hsum : (allOffsets.map kernelWeight).sum = 126 := by
    norm_num [allOffsets, nonCenterOffsets, kernelWeight]
  refine ⟨hsum, ?_, rfl⟩
  rw [hsum]
  norm_num

/-- C7 (amended): `process` contains no peak extractor; its single 3×3×3
convolution is applied to the boolean base mask (not to the PE or SER maps)
with a kernel of 26 unit weights and centre weight 100 (zero-padded, same
output shape), so the convolved value is `100*mask(v) + #(true neighbours)`
— on a constantly-true mask it is 126, not the input value — and the result
is only compared against `100 + PIXEL_CONNECTIVITY` to erode the mask; no
`peakPE` or `peakSER` value is computed. -/
theorem conv_applies_to_base_mask_char (inp : MapEngineInput)
    (mask : V3 → Bool) (v : V3) :
    convbrmask mask v = 100 * boolInd (mask v) + ((neighborCount mask v : ℕ) : ℚ) ∧
    convbrmask (fun _ => true) v = 126 ∧
    base_mask_conn inp v
      = decide (100 + PIXEL_CONNECTIVITY ≤ convbrmask (base_mask_ser inp) v) ∧
    segPoints inp = inp.voxels.filter (base_mask_conn inp) := by
  refine ⟨convbrmask_char mask v, ?_, rfl, rfl⟩
  rw [convbrmask_char]
  have hc : neighborCount (fun _ => true) v = 26 := rfl
  rw [hc]
  norm_num [boolInd]

/-- C8 counterexample: with no matching named segment, the SER-Distribution
row of bin 0 is `(legend, 0.0, 0.0)` — an ordinary zero, identical to the
row produced by a matched segment with zero voxels — so "no segment
created" is not distinguishable from "zero voxels" and no missing/NaN-like
value is recorded. -/
theorem serDist_unmatched_bin_zero_row :
    serDistRow [] 10 0 = (legendAt 0, 0, 0) ∧
    serDistRow [{ name := legendAt 0, volume_cm3 := 0, voxel_count := 0 }] 10 0
      = (legendAt 0, 0, 0) := by
  constructor
  · rfl
  · simp [serDistRow, List.filter]

/-- C8 (amended): every configured bin with no matching named segment is
reported in the SER-Distribution table with its legend name, volume `0.0`
and percentage `0.0` — plain zeros, the same row a matched segment with
zero voxels produces — not as a missing/NaN-like value. -/
theorem serDist_unmatched_bin_reported_as_zero (segments : List SegStat)
    (ftvVoxelCount : ℚ) (idx : ℕ)
    (hnone : (segments.filter (fun s => s.name = legendAt idx)).getLast? = none) :
    serDistRow segments ftvVoxelCount idx = (legendAt idx, 0, 0) ∧
    (∀ ftv2 : ℚ,
      serDistRow [{ name := legendAt idx, volume_cm3 := 0, voxel_count := 0 }] ftv2 idx
        = (legendAt idx, 0, 0)) := by
  constructor
  · unfold serDistRow
    rw [hnone]
  · intro ftv2
    simp [serDistRow, List.filter]

/-- Witness for the amended C8 theorem: the empty segment list matches no
legend. -/
theorem serDist_unmatched_bin_reported_as_zero_witness :
    (([] : List SegStat).filter (fun s => s.name = legendAt 0)).getLast? = none ∧
    serDistRow [] 10 0 = (legendAt 0, 0, 0) :=
  ⟨rfl, (serDist_unmatched_bin_reported_as_zero [] 10 0 rfl).1⟩

/-- C9: the "ROI Volume" summary row multiplies the collaborator's
enclosing-box volume by `ellipsoidScale = (0.5)^3 * (4/3) * pi`, which
equals `pi/6`, the enclosing-box-to-inscribed-ellipsoid conversion factor. -/
theorem roiVolume_box_times_pi_over_six (boxVolume : ℝ) :
    roiVolumeValue boxVolume = boxVolume * (Real.pi / 6) ∧
    ellipsoidScale = Real.pi / 6 := by
  constructor
  · unfold roiVolumeValue ellipsoidScale
    ring
  · unfold ellipsoidScale
    ring

/-- C10: after PE and SER have been masked, the base mask is replaced by its
connectivity-filtered version — a voxel is kept iff it was in the mask and
at least `PIXEL_CONNECTIVITY = 4` of its 26 neighbours (3×3×3, zero-padded)
were — and this eroded mask, not the mask used to zero PE and SER, is the
one multiplied into `SERClass` and selecting the voxels of the TIC means. -/
theorem connectivity_filter_char (inp : MapEngineInput) (v : V3) (t : ℕ) :
    (base_mask_conn inp v = true ↔
      (base_mask_ser inp v = true ∧ 4 ≤ neighborCount (base_mask_ser inp) v)) ∧
    SERClassOut inp v
      = SERmapRaw (SERmasked inp v) * (if base_mask_conn inp v then 1 else 0) ∧
    segPoints inp = inp.voxels.filter (base_mask_conn inp) ∧
    ticMean inp t
      = ((segPoints inp).map (uptake inp t)).sum / ((segPoints inp).length : ℚ) ∧
    PE inp v = (if base_mask_pe inp v then PEraw inp v else 0) ∧
    SERmasked inp v = (if base_mask_ser inp v then SERclamped inp v else 0) :=
  ⟨base_mask_conn_iff inp v, rfl, rfl, rfl, rfl, rfl⟩
